import Mathlib

/-!
Verification of the command-execution engine of `vsc-base`
(`lib/vsc/utils/run.py`), shallowly embedded in Lean 4.

Strings of the Python program are modelled as `List Char` (`Str` below);
Python exceptions are modelled by `Except` with an explicit error type.
Each definition mirrors the source function named in its doc comment.
-/

namespace VscRun

/-- Python strings, modelled as lists of characters. -/
abbrev Str := List Char

/-- The Python exception classes that the modelled code can raise. -/
inductive PyErr where
  | valueError
  | typeError
  | indexError
  | osError
  | notImplementedError
  deriving DecidableEq, Repr

/-- A fragment of the Python value universe, large enough for the arguments
the modelled functions receive: strings, integers, `None` and lists. -/
inductive PyVal where
  | str (s : Str)
  | int (n : Int)
  | none
  | list (xs : List PyVal)
  deriving Repr

/-- Whether a `PyVal` is a Python `str` (the `isinstance(item, str)` test). -/
def PyVal.isStr : PyVal → Bool
  | .str _ => true
  | _ => false

/-- Python's `%` operator, `item % tmpl_vals`, for a mapping `tmpl_vals`
(modelled as an opaque total substitution on strings).  On a `str` it
performs template substitution; on an `int`, `None` or a `list` the operator
is unsupported for a mapping right operand and raises `TypeError`. -/
def pyMod (v : PyVal) (subst : Str → Str) : Except PyErr PyVal :=
  match v with
  | .str s => .ok (.str (subst s))
  | _ => .error .typeError

/-! ## CmdList (`run.py` lines 90-128)

`CmdList.add` walks the supplied items; each item is first formatted with
`tmpl_vals` (when supplied), must then be a `str`, and must be free of ASCII
spaces when `allow_spaces` is false.  Failures raise out of `add` with the
already-validated items appended (the list keeps the prefix).  We return the
final list contents together with the exception, if one was raised. -/

/-- One pass of the `for item in items` loop of `CmdList.add`:
returns the list contents after the call and the exception raised, if any. -/
def cmdListAdd (cur : List Str) (items : List PyVal) (tmpl : Option (Str → Str))
    (allowSpaces : Bool) : List Str × Option PyErr :=
  match items with
  | [] => (cur, Option.none)
  | it :: rest =>
    match (match tmpl with | Option.some f => pyMod it f | Option.none => .ok it) with
    | .error e => (cur, Option.some e)
    | .ok it2 =>
      match it2 with
      | .str s =>
        if !allowSpaces && s.contains ' ' then (cur, Option.some PyErr.valueError)
        else cmdListAdd (cur ++ [s]) rest tmpl allowSpaces
      | _ => (cur, Option.some PyErr.valueError)

/-- `CmdList.add` entry point: a non-list `items` argument is wrapped in a
singleton list before the loop (`if not isinstance(items, (list, tuple))`). -/
def cmdListAddTop (cur : List Str) (items : PyVal) (tmpl : Option (Str → Str))
    (allowSpaces : Bool) : List Str × Option PyErr :=
  match items with
  | .list xs => cmdListAdd cur xs tmpl allowSpaces
  | v => cmdListAdd cur [v] tmpl allowSpaces

/-- `CmdList.append`: unconditionally raises `NotImplementedError`. -/
def cmdListAppend (_ : List PyVal) : Except PyErr Unit :=
  .error .notImplementedError

/-- `CmdList.extend`: unconditionally raises `NotImplementedError`. -/
def cmdListExtend (_ : List PyVal) : Except PyErr Unit :=
  .error .notImplementedError

/-! ## `Run._killtasks` (`run.py` lines 441-495) -/

/-- The value of a non-empty all-digit character list. -/
def digitsVal (cs : Str) : Option Nat :=
  if cs.isEmpty then Option.none
  else if cs.all (fun c => c.isDigit) then
    Option.some (cs.foldl (fun a c => a * 10 + (c.toNat - 48)) 0)
  else Option.none

/-- Python's `int(str)` parsing: an optional sign followed by digits
(surrounding-whitespace stripping and underscore grouping are accepted by
Python too; they are immaterial here, where the parser only separates the
`ValueError` outcome from success). -/
def pyStrToInt (s : Str) : Option Int :=
  match s with
  | '-' :: rest => (digitsVal rest).map (fun n => -(n : Int))
  | '+' :: rest => (digitsVal rest).map (fun n => (n : Int))
  | _ => (digitsVal s).map (fun n => (n : Int))

/-- Python's `int(x)` coercion on our value fragment: an `int` is returned
unchanged, a `str` is parsed (raising `ValueError` when malformed), and
`None` or a `list` raise `TypeError`. -/
def pyToInt (v : PyVal) : Except PyErr Int :=
  match v with
  | .int n => .ok n
  | .str s => match pyStrToInt s with
    | Option.some n => .ok n
    | Option.none => .error .valueError
  | .none => .error .typeError
  | .list _ => .error .typeError

/-- Errors of the OS-level `kill`/`getpgid` calls: `ESRCH` (no such
process) or anything else. -/
inductive OSKErr where
  | esrch
  | other
  deriving DecidableEq, Repr

/-- The behaviour of the OS during a `_killtasks` call. -/
structure KillWorld where
  getpgid : Int → Except OSKErr Int
  kill : Int → Int → Except OSKErr Unit

/-- The `log.error` events `_killtasks` can emit. -/
inductive KLog where
  | noTasks
  | convertFail
  | opFail
  | pgidNone
  deriving DecidableEq, Repr

/-- `do_something_with_pid(os.kill, [pid, sig], ...)`: all exceptions are
caught; `ESRCH` is silently ignored, anything else is logged. -/
def dswpKill (w : KillWorld) (pid sig : Int) : List KLog :=
  match w.kill pid sig with
  | .ok _ => []
  | .error .esrch => []
  | .error .other => [.opFail]

/-- `do_something_with_pid(os.getpgid, [pid], ...)`: returns the pgid when
the call succeeds, `none` otherwise; `ESRCH` is silent, others are logged. -/
def dswpPgid (w : KillWorld) (pid : Int) : Option Int × List KLog :=
  match w.getpgid pid with
  | .ok g => (Option.some g, [])
  | .error .esrch => (Option.none, [])
  | .error .other => (Option.none, [.opFail])

/-- The `for pid in tasks: try: pids.append(int(pid)) except ValueError`
coercion loop.  Only `ValueError` is caught (and logged); any other
exception from `int(...)` — e.g. the `TypeError` raised for `None` or a
list — propagates out of `_killtasks`. -/
def coercePids (tasks : List PyVal) : Except PyErr (List Int × List KLog) :=
  match tasks with
  | [] => .ok ([], [])
  | v :: rest =>
    match pyToInt v with
    | .ok n => (coercePids rest).map (fun p => (n :: p.1, p.2))
    | .error .valueError => (coercePids rest).map (fun p => (p.1, KLog.convertFail :: p.2))
    | .error e => .error e

/-- The per-pid body of the second loop of `_killtasks`: optionally fetch
the pgid, signal the pid, then signal the pgid (logging when it could not
be determined). -/
def killOne (w : KillWorld) (killPgid : Bool) (sig pid : Int) : List KLog :=
  if killPgid then
    let pg := dswpPgid w pid
    let l2 := dswpKill w pid sig
    let l3 := match pg.1 with
      | Option.none => [KLog.pgidNone]
      | Option.some g => dswpKill w g sig
    pg.2 ++ l2 ++ l3
  else dswpKill w pid sig

/-- `Run._killtasks(tasks, sig, kill_pgid)`.  Returns the log events of the
call, or the exception that escaped it. -/
def killtasksModel (w : KillWorld) (tasks : Option PyVal) (sig : Int)
    (killPgid : Bool) : Except PyErr (List KLog) :=
  match tasks with
  | Option.none => .ok [.noTasks]
  | Option.some tv =>
    let tl := match tv with
      | .list xs => xs
      | v => [v]
    match coercePids tl with
    | .error e => .error e
    | .ok (pids, ls) => .ok (ls ++ pids.flatMap (killOne w killPgid sig))

/-! ## The loop driver, `RunLoop._wait_for_process` (`run.py` lines 558-599)

The loop reads a chunk, appends it to `self._process_output`, and hands the
chunk to `_loop_process_output`, which may raise `RunLoopException(code,
output)` (caught by the surrounding handler, which then overwrites both the
exit code and the collected output with the carried values) or an ordinary
Python exception (which propagates out of the run).  The environment of one
run is captured as a `Trace`: the chunk delivered by `_read_process` at each
iteration, the `poll()` result seen before each iteration (`polls 0` is the
poll preceding the first iteration), and the final blocking drain.  Wall
clock and chunk contents are data of the trace, so the model is a pure
function of it; the loop is given fuel, `Option.none` meaning it was still
looping when the fuel ran out. -/

/-- Sentinel constants of `run.py` (lines 82-84). -/
def RUNRUN_TIMEOUT_OUTPUT : Str := []

/-- `RUNRUN_TIMEOUT_EXITCODE = 123`. -/
def RUNRUN_TIMEOUT_EXITCODE : Int := 123

/-- `RUNRUN_QA_MAX_MISS_EXITCODE = 124`. -/
def RUNRUN_QA_MAX_MISS_EXITCODE : Int := 124

/-- What `_loop_process_output` can raise: `RunLoopException(code, output)`
(with `killed` recording whether `stop_tasks()` was invoked just before the
raise, as both the timeout and the QA bailout do), or an ordinary Python
exception that the loop driver does not catch. -/
inductive StepExit where
  | loopExc (code : Int) (output : Str) (killed : Bool)
  | pyExc (e : PyErr)

/-- A chunk hook: the state carried by the subclass plus its
`_loop_process_output` body.  Arguments of `step`: the iteration counter,
the hook state, the freshly read chunk, and the accumulated
`self._process_output` (which already includes the chunk, since the loop
appends before invoking the hook). -/
structure Hook (σ : Type) where
  init : σ
  step : Nat → σ → Str → Str → Except StepExit σ

/-- The environment of one run of the loop. -/
structure Trace where
  chunks : Nat → Str
  polls : Nat → Option Int
  finalRead : Str

/-- The observable outcome of `_wait_for_process`:
`self._process_exitcode`, `self._process_output`, whether `stop_tasks` ran,
and the value of `self._loop_count` when the loop ended. -/
structure LoopResult where
  exitcode : Option Int
  output : Str
  killed : Bool
  iterations : Nat
  deriving Repr

/-- The `while` guard of `RunLoop._wait_for_process` (line 573):
`self._loop_continue and (ec is None or ec < 0)`.  Note that a *negative*
exit status — the value `poll()` reports for a child terminated by a
signal — keeps the loop running. -/
def loopCond (cont : Bool) (ec : Option Int) : Bool :=
  cont && (match ec with
    | Option.none => true
    | Option.some v => decide (v < 0))

/-- The loop body of `RunLoop._wait_for_process`, including the
`except RunLoopException` handler and, on normal exit, the final blocking
drain followed by `_loop_process_output_final` (which by default runs the
same hook on the drained chunk).  `_loop_continue` is never cleared by any
subclass in the module, so it stays `true` throughout. -/
def runLoopGo {σ : Type} (hk : Hook σ) (t : Trace) :
    Nat → Nat → σ → Str → Option (Except PyErr LoopResult)
  | 0, _, _, _ => Option.none
  | fuel + 1, i, s, acc =>
    if loopCond true (t.polls i) then
      let out := t.chunks i
      let acc2 := acc ++ out
      match hk.step i s out acc2 with
      | .error (.loopExc c o k) => Option.some (.ok ⟨Option.some c, o, k, i⟩)
      | .error (.pyExc e) => Option.some (.error e)
      | .ok s2 => runLoopGo hk t fuel (i + 1) s2 acc2
    else
      let acc2 := acc ++ t.finalRead
      match hk.step i s t.finalRead acc2 with
      | .error (.loopExc c o k) => Option.some (.ok ⟨Option.some c, o, k, i⟩)
      | .error (.pyExc e) => Option.some (.error e)
      | .ok _ => Option.some (.ok ⟨t.polls i, acc2, false, i⟩)

/-- `RunLoop._wait_for_process` itself: counter and output start at zero
and empty, the hook state at its initial value. -/
def runLoopModel {σ : Type} (hk : Hook σ) (t : Trace) (fuel : Nat) :
    Option (Except PyErr LoopResult) :=
  runLoopGo hk t fuel 0 hk.init []

/-- The base `RunLoop._loop_process_output`: `pass`. -/
def trivialHook : Hook Unit :=
  ⟨(), fun _ s _ _ => .ok s⟩

/-! ## `RunTimeout` (`run.py` lines 777-794) -/

/-- `RunTimeout._loop_process_output`: when the wall-clock time since
construction strictly exceeds `self.timeout`, call `stop_tasks()` and raise
`RunLoopException(RUNRUN_TIMEOUT_EXITCODE, RUNRUN_TIMEOUT_OUTPUT)`.
`elapsed i` is the value of `time.time() - self.start` observed at
iteration `i` (time is modelled in abstract integer units; only the order
relation against the threshold matters).  `self.timeout` is always set:
`float(kwargs.pop('timeout', None))` fails at construction otherwise. -/
def timeoutHook (elapsed : Nat → Int) (tmo : Int) : Hook Unit :=
  ⟨(), fun i s _ _ =>
    if elapsed i > tmo then
      .error (.loopExc RUNRUN_TIMEOUT_EXITCODE RUNRUN_TIMEOUT_OUTPUT true)
    else .ok s⟩

/-! ## `RunQA` (`run.py` lines 802-960)

Compiled regexes are opaque to this part of the development: a `Pattern`
is just its `search` function against a string (`re.Pattern.search`
returning a match or not).  The self-match property of the patterns that
`_parse_qa` builds for *exact* questions is proved further below with an
executable matcher for exactly that pattern shape. -/

/-- An opaque compiled regex: `bool(pattern.search(s))`. -/
structure Pattern where
  search : Str → Bool

/-- `LOOP_MAX_MISS_COUNT = 20`. -/
def LOOP_MAX_MISS_COUNT : Nat := 20

/-- `CYCLE_ANSWERS = True`. -/
def CYCLE_ANSWERS : Bool := true

/-- The per-run mutable state of `RunQA` that `_loop_process_output`
touches, minus `self._process_output` (which the loop passes in). -/
structure QAState where
  hitPosition : Nat
  missCount : Nat
  prevOutputLength : Nat
  allQA : List (Pattern × List Str)
  noQA : List Pattern

/-- The answer consumption of a hit (`run.py` lines 922-927):
`answer = answers[0]` — an `IndexError` on an empty list — and, when more
than one answer remains, the head is popped and (`CYCLE_ANSWERS`)
re-appended at the tail. -/
def answerSelect (ans : List Str) : Except PyErr (Str × List Str) :=
  match ans with
  | [] => .error .indexError
  | a :: tail =>
    .ok (a, if tail.length + 1 > 1 then (if CYCLE_ANSWERS then tail ++ [a] else tail) else a :: tail)

/-- The `for idx, (question, answers) in enumerate(all_qa)` loop
(lines 919-935): the first entry whose pattern matches the output since the
last hit — *and* for which the freshly read chunk `output` is non-empty,
since the guard is `if output and res` — is answered; its answer list is
replaced by the rotated one and iteration stops (`break`).  Returns the
answer sent, if any, and the updated table. -/
def qaScan (chunk since : Str) :
    List (Pattern × List Str) → Except PyErr (Option Str × List (Pattern × List Str))
  | [] => .ok (Option.none, [])
  | (q, ans) :: rest =>
    if !chunk.isEmpty && q.search since then
      match answerSelect ans with
      | .error e => .error e
      | .ok (a, newAns) => .ok (Option.some a, (q, newAns) :: rest)
    else
      (qaScan chunk since rest).map (fun r => (r.1, (q, ans) :: r.2))

/-- `RunQA._loop_process_output` (lines 901-960), for an already
constructed `all_qa` list.  `processOutput` is `self._process_output` as
the loop passes it in (chunk already appended).  After the scan: a hit
resets the miss counter and advances `hit_position` to the end of the
buffer; a miss either records output growth, or is excused by a `no_qa`
match against the buffer, or increments the miss counter.  When the
counter exceeds `LOOP_MAX_MISS_COUNT`, `stop_tasks()` runs and
`RunLoopException(RUNRUN_QA_MAX_MISS_EXITCODE, self._process_output)` is
raised.  (Answer rendering `answers[0] % res.groupdict()` is the identity
here: group substitution applies the named groups of the match to the
answer template, and the selected answer string is returned as sent.) -/
def qaStep (st : QAState) (chunk processOutput : Str) :
    Except StepExit (QAState × Option Str) :=
  match qaScan chunk (processOutput.drop st.hitPosition) st.allQA with
  | .error e => .error (.pyExc e)
  | .ok (hitAns, newQA) =>
    let hit := hitAns.isSome
    let st1 : QAState :=
      { st with
        allQA := newQA
        hitPosition := if hit then processOutput.length else st.hitPosition }
    let st2 : QAState :=
      if hit then { st1 with missCount := 0 }
      else
        if processOutput.length > st.prevOutputLength then
          { st1 with prevOutputLength := processOutput.length }
        else if st.noQA.any (fun r => r.search processOutput) then st1
        else { st1 with missCount := st.missCount + 1 }
    if st2.missCount > LOOP_MAX_MISS_COUNT then
      .error (.loopExc RUNRUN_QA_MAX_MISS_EXITCODE processOutput true)
    else .ok (st2, hitAns)

/-- Python 3 `sorted` applied to the items of a dict keyed by compiled
`re.Pattern` objects (`sorted(self.qa.items())`, line 918).  Sorting a
list of at least two `(pattern, answers)` tuples compares two tuples,
which first tests the patterns with `==` (identity for `re.Pattern`, hence
`False` for the distinct keys of a dict) and then falls back to `<` —
unsupported between `re.Pattern` instances, so a `TypeError` is raised.
With fewer than two items no comparison happens and the list is returned
as is. -/
def pySortedPatternItems (l : List (Pattern × List Str)) :
    Except PyErr (List (Pattern × List Str)) :=
  if l.length ≤ 1 then .ok l else .error .typeError

/-- `RunQA._loop_process_output` including the construction
`all_qa = sorted(self.qa.items()) + sorted(self.qa_reg.items())` performed
at every invocation (line 918).  This is the full-fidelity step:
`qaStep` above is only the body that runs once that construction has
returned, which it does exactly when each dict holds fewer than two
items. -/
def qaStepFull (qaD qaRegD : List (Pattern × List Str)) (noqa : List Pattern)
    (hitPos miss prev : Nat) (chunk processOutput : Str) :
    Except StepExit (QAState × Option Str) :=
  match pySortedPatternItems qaD with
  | .error e => .error (.pyExc e)
  | .ok l1 =>
    match pySortedPatternItems qaRegD with
    | .error e => .error (.pyExc e)
    | .ok l2 => qaStep ⟨hitPos, miss, prev, l1 ++ l2, noqa⟩ chunk processOutput

/-- The per-run state of `RunQA` as the source holds it: the two
question dicts (which persist across loop iterations and own the —
possibly rotated — answer lists), the `no_qa` list, and the scalar loop
state `hit_position` / `_loop_miss_count` / `_loop_previous_ouput_length`. -/
structure QAFullState where
  qaD : List (Pattern × List Str)
  qaRegD : List (Pattern × List Str)
  noQA : List Pattern
  hitPosition : Nat
  missCount : Nat
  prevOutputLength : Nat

/-- One full invocation of `RunQA._loop_process_output` acting on the
persistent state: rebuild `all_qa` by sorting the dict items (line 918),
run the scan and bookkeeping, and store the updated answer lists back
into the dicts.  Whenever the sort returns at all it is the identity
(fewer than two items), and the scan preserves the length and order of
the table, so splitting the updated concatenation at the boundary
reconstructs the dict contents exactly as Python's in-place list mutation
leaves them. -/
def qaFullStep (st : QAFullState) (chunk acc : Str) :
    Except StepExit (QAFullState × Option Str) :=
  match qaStepFull st.qaD st.qaRegD st.noQA st.hitPosition st.missCount
      st.prevOutputLength chunk acc with
  | .error e => .error e
  | .ok (st2, ans) =>
    .ok ({ st with
            qaD := st2.allQA.take st.qaD.length
            qaRegD := st2.allQA.drop st.qaD.length
            hitPosition := st2.hitPosition
            missCount := st2.missCount
            prevOutputLength := st2.prevOutputLength }, ans)

/-- The QA hook plugged into the loop driver (the written answers are fed
to the child, not part of the loop state). -/
def qaHookFull (st0 : QAFullState) : Hook QAFullState :=
  ⟨st0, fun _ st chunk acc => (qaFullStep st chunk acc).map (fun r => r.1)⟩

/-! ## `RunQA._parse_qa` (`run.py` lines 829-894)

Exact questions are turned into a regex: the question is split on runs of
whitespace (`re.compile('[\s\n]+').split`, where `\n` is redundant inside
`\s`), every piece is escaped, the pieces are rejoined with `[\s\n]+` and
`SPLIT.rstrip('+') + "*$"` — that is, `[\s\n]*$` — is appended.  The
construction is then sanity-checked by `reg_q.search(question)`.  We model
the character class `\s` by `isWS` (the ASCII whitespace characters; the
model uses the same class on both the splitting side and the matching
side, exactly as the source uses `\s` on both sides). -/

/-- ASCII `\s`: space, tab, newline, carriage return, vertical tab,
form feed. -/
def isWS (c : Char) : Bool :=
  c = ' ' || c = '\t' || c = '\n' || c = '\x0d' || c = '\x0b' || c = '\x0c'

theorem length_dropWhile_le (p : Char → Bool) (l : Str) :
    (l.dropWhile p).length ≤ l.length := by
  induction l with
  | nil => simp [List.dropWhile]
  | cons c cs ih =>
    by_cases h : p c
    · simp only [List.dropWhile, h]
      exact le_trans ih (by simp)
    · simp [List.dropWhile, h]

/-- `re.compile('[\s\n]+').split(question)`: pieces between maximal
whitespace runs, with an empty leading/trailing piece when the string
starts/ends with whitespace (`re.split` semantics). -/
def splitWSGo (s : Str) (cur : Str) : List Str :=
  match s with
  | [] => [cur]
  | c :: cs =>
    if isWS c then cur :: splitWSGo (cs.dropWhile isWS) []
    else splitWSGo cs (cur ++ [c])
termination_by s.length
decreasing_by
  · have := length_dropWhile_le isWS cs
    simp only [List.length_cons]
    omega
  · simp only [List.length_cons]
    omega

/-- `REG_SPLIT.split(question)` with an empty accumulator. -/
def splitWS (s : Str) : List Str := splitWSGo s []

/-- The characters escaped by `escape_special` (`specials =
'.*+?(){}[]|\$^'`; the Python literal `\$` is the two characters
backslash, dollar). -/
def specialsList : Str :=
  ['.', '*', '+', '?', '(', ')', '\x7b', '\x7d', '[', ']', '|', '\\', '$', '^']

/-- `escape_special`: prefix every special character with a backslash. -/
def escapeSpecial (s : Str) : Str :=
  s.flatMap (fun c => if specialsList.contains c then ['\\', c] else [c])

/-- The separator pattern text `SPLIT = '[\s\n]+'`.  In the non-raw Python
literal `\s` stays as the two characters backslash-`s`, while `\n` is an
actual newline character; both denote the same whitespace class inside the
brackets. -/
def SPLIT : Str := ['[', '\\', 's', '\n', ']', '+']

/-- Python `str.rstrip` with a single strip character. -/
def rstripChar (c : Char) (s : Str) : Str :=
  (s.reverse.dropWhile (fun x => x = c)).reverse

/-- The regex text built by `process_question`:
`SPLIT.join(split_q) + SPLIT.rstrip('+') + "*$"`. -/
def processQuestionText (q : Str) : Str :=
  List.intercalate SPLIT ((splitWS q).map escapeSpecial)
    ++ rstripChar '+' SPLIT ++ ['*', '$']

/-- The regex text built for a `qa_reg` question (line 886):
`question + r"[\s\n]*$"` (a raw literal there, so backslash-`n`). -/
def regQuestionText (r : Str) : Str :=
  r ++ ['[', '\\', 's', '\\', 'n', ']', '*', '$']

/-- The abstract syntax of the regexes `process_question` constructs: a
sequence of literal pieces (each piece is fully escaped in the text, so it
denotes itself), `[\s\n]+` separators and the final `[\s\n]*`; the
trailing `$` is expressed by the matcher consuming the whole rest of the
string. -/
inductive RTok where
  | lit (p : Str)
  | wsPlus
  | wsStar
  deriving Repr

/-- Weight of a token list, the secondary termination measure of the
matcher. -/
def toksWeight : List RTok → Nat
  | [] => 0
  | .lit p :: ts => p.length + 1 + toksWeight ts
  | .wsPlus :: ts => 1 + toksWeight ts
  | .wsStar :: ts => 1 + toksWeight ts

/-- A complete (backtracking) matcher for the token language: does the
token sequence match the *entire* string?  `wsPlus` consumes one
whitespace character and continues as `wsStar`; `wsStar` either stops or
consumes one whitespace character and continues. -/
def matchToks : List RTok → Str → Bool
  | [], [] => true
  | [], _ :: _ => false
  | .lit [] :: ts, s => matchToks ts s
  | .lit (_ :: _) :: _, [] => false
  | .lit (a :: ps) :: ts, b :: ss => a = b && matchToks (.lit ps :: ts) ss
  | .wsPlus :: _, [] => false
  | .wsPlus :: ts, c :: ss => isWS c && matchToks (.wsStar :: ts) ss
  | .wsStar :: ts, [] => matchToks ts []
  | .wsStar :: ts, c :: ss =>
    matchToks ts (c :: ss) || (isWS c && matchToks (.wsStar :: ts) ss)
termination_by ts s => (s.length, toksWeight ts)
decreasing_by
  all_goals simp only [toksWeight, List.length_cons]
  all_goals first
    | apply Prod.Lex.right
      omega
    | apply Prod.Lex.left
      omega

/-- `pattern.search(s)` for an end-anchored pattern: the tokens match the
suffix of `s` starting at some position. -/
def searchToks (ts : List RTok) (s : Str) : Bool :=
  (List.range (s.length + 1)).any (fun i => matchToks ts (s.drop i))

/-- The token denotation of the text built from a piece list: literals
interleaved with `[\s\n]+`, closed by `[\s\n]*`. -/
def toksOfPieces (pieces : List Str) : List RTok :=
  ((pieces.map RTok.lit).intersperse RTok.wsPlus) ++ [RTok.wsStar]

/-- The token denotation of the regex `process_question` compiles for `q`. -/
def patToks (q : Str) : List RTok := toksOfPieces (splitWS q)

/-- Rendering a token back to regex text (a literal renders as its escaped
text, which denotes the literal since every metacharacter is escaped). -/
def renderTok : RTok → Str
  | .lit p => escapeSpecial p
  | .wsPlus => SPLIT
  | .wsStar => ['[', '\\', 's', '\n', ']', '*']

/-- Rendering a full token sequence, with the trailing `$` anchor. -/
def renderToks (ts : List RTok) : Str := ts.flatMap renderTok ++ ['$']

/-- `process_question` including its sanity check: build the regex text,
then `reg_q.search(question)`; a failed self-match raises (the source
passes `exception=ValueError`; its message formatting would itself crash
on `question.pattern`, but the branch is unreachable — see the theorems
below). -/
def processQuestion (q : Str) : Except PyErr Str :=
  if searchToks (patToks q) q then .ok (processQuestionText q)
  else .error .valueError

/-- The trailing-newline pass of `process_answers` (lines 859-861): every
answer that does not end in a newline gets one appended when
`self.add_newline` is set (the index loop of the source is exactly this
map). -/
def processAnswersNL (addNewline : Bool) (ans : List Str) : List Str :=
  if addNewline then ans.map (fun a => if a.getLast? = Option.some '\n' then a else a ++ ['\n'])
  else ans

/-! ## `Run._run` path handling (`run.py` lines 257-333)

`_run` is `self._run_pre(); self._wait_for_process(); return
self._run_post()` with **no** `try/finally`: an exception anywhere simply
propagates.  `_run_pre` changes into `startpath` (after checking it exists
and is a directory) and then spawns; `_run_post` — reached only when
nothing raised — changes back as its final step.  The file-system state is
reduced to the process-wide current directory plus the set of existing
directories; paths are abstract identifiers. -/

abbrev Path := Nat

/-- The process-wide file-system state a run can observe and mutate. -/
structure World where
  cwd : Path
  dirs : List Path
  deriving DecidableEq, Repr

/-- `Run._run` with respect to working-directory handling.  `spawnOk`
says whether `Popen` succeeds; `child` is the `(exitcode, output)` the
rest of the run would produce.  An `Except.error` carries the exception
and the world state — in particular its `cwd` — at the moment the
exception escapes `_run`. -/
def runPathModel (startpath : Option Path) (spawnOk : Bool) (child : Int × Str)
    (w : World) : Except (PyErr × World) ((Int × Str) × World) :=
  match startpath with
  | Option.none =>
    if spawnOk then .ok (child, w) else .error (.osError, w)
  | Option.some sp =>
    if sp ∈ w.dirs then
      let saved := w.cwd
      let w1 : World := { w with cwd := sp }
      if spawnOk then
        if saved ∈ w1.dirs then .ok (child, { w1 with cwd := saved })
        else .error (.valueError, w1)
      else .error (.osError, w1)
    else .error (.valueError, w)

/-! ## Spec-side definitions

These follow the wording of the specification (rather than the source) and
are compared against the embedded code in the theorems. -/

/-- Whether a chunk-processing step of `RunQA` has a question hit, per the
source guard `if output and res`: the chunk is non-empty and some question
matches the output since the last hit position. -/
def qaHasHit (st : QAState) (chunk acc : Str) : Bool :=
  !chunk.isEmpty && st.allQA.any (fun p => p.1.search (acc.drop st.hitPosition))

/-- The miss-counter update as the specification words it: a hit resets the
counter to 0; a no-hit step increments it exactly when the output did not
grow and no `no_qa` regex matched; otherwise it is left alone. -/
def specMissCount (hit grew noqa : Bool) (old : Nat) : Nat :=
  if hit then 0 else if !grew && !noqa then old + 1 else old

/-- The answer-list rotation a single hit performs (the second component of
`answerSelect`; an empty list is returned unchanged since the step raises
before rotating). -/
def rotate1 (l : List Str) : List Str :=
  match answerSelect l with
  | .ok r => r.2
  | .error _ => l

/-- The answer list after `n` hits of the same question. -/
def hitsAfter : Nat → List Str → List Str
  | 0, l => l
  | n + 1, l => hitsAfter n (rotate1 l)

/-- The answer sent on the `n`-th hit (1-based) of a question whose list
started as `l`. -/
def nthHitAnswer (n : Nat) (l : List Str) : Option Str :=
  (hitsAfter (n - 1) l).head?

/-- The state update a `RunQA` chunk step performs after the scan (the
`st1`/`st2` computation of `qaStep`, written out for the proofs). -/
def qaPost (st : QAState) (acc : Str) (hit : Bool)
    (newQA : List (Pattern × List Str)) : QAState :=
  let st1 : QAState :=
    { st with allQA := newQA
              hitPosition := if hit then acc.length else st.hitPosition }
  if hit then { st1 with missCount := 0 }
  else if acc.length > st.prevOutputLength then
    { st1 with prevOutputLength := acc.length }
  else if st.noQA.any (fun r => r.search acc) then st1
  else { st1 with missCount := st.missCount + 1 }

/-! ## Theorems -/

/-- Claim C6 counterexample: adding the non-string item `5` with template
values supplied raises a `TypeError` from the `%` substitution, not the
value-shaped error the claim promises for every non-string item. -/
theorem c6_counterexample :
    cmdListAddTop [] (PyVal.int 5) (Option.some id) true
        = ([], Option.some PyErr.typeError)
      ∧ PyErr.typeError ≠ PyErr.valueError :=
  ⟨rfl, by decide⟩

/-- Claim C6 (amended): with no template values a non-string item raises a
value-shaped error; with template values the `%` substitution itself
raises a type-shaped error on a non-string item; in both cases the failing
item is not appended (the list keeps only what was already validated).
When `allow_spaces` is false an item containing an ASCII space raises a
value-shaped error and is not appended.  Direct `append`/`extend` always
raise. -/
theorem c6_cmdlist_rejection :
    (∀ (cur : List Str) (v : PyVal) (rest : List PyVal) (asp : Bool),
      v.isStr = false →
      cmdListAdd cur (v :: rest) Option.none asp = (cur, Option.some PyErr.valueError))
    ∧ (∀ (cur : List Str) (v : PyVal) (rest : List PyVal) (f : Str → Str) (asp : Bool),
      v.isStr = false →
      cmdListAdd cur (v :: rest) (Option.some f) asp = (cur, Option.some PyErr.typeError))
    ∧ (∀ (cur : List Str) (s : Str) (rest : List PyVal),
      s.contains ' ' = true →
      cmdListAdd cur (PyVal.str s :: rest) Option.none false
        = (cur, Option.some PyErr.valueError))
    ∧ (∀ args, cmdListAppend args = Except.error PyErr.notImplementedError)
    ∧ (∀ args, cmdListExtend args = Except.error PyErr.notImplementedError) := by
  refine ⟨?_, ?_, ?_, fun _ => rfl, fun _ => rfl⟩
  · intro cur v rest asp hv
    cases v <;> simp_all [cmdListAdd, PyVal.isStr]
  · intro cur v rest f asp hv
    cases v <;> simp_all [cmdListAdd, pyMod, PyVal.isStr]
  · intro cur s rest hs
    have hc : (!false && s.contains ' ') = true := by
      rw [Bool.not_false, Bool.true_and]
      exact hs
    simp only [cmdListAdd, hc, if_true]

/-- Claim C6 witness: the amended theorem evaluated at concrete inputs. -/
theorem c6_witness :
    cmdListAdd [] [PyVal.none] Option.none true = ([], Option.some PyErr.valueError)
    ∧ cmdListAdd [] [PyVal.int 3] (Option.some id) true = ([], Option.some PyErr.typeError)
    ∧ cmdListAdd [] [PyVal.str ['a', ' ', 'b']] Option.none false
        = ([], Option.some PyErr.valueError) :=
  ⟨c6_cmdlist_rejection.1 [] PyVal.none [] true rfl,
   c6_cmdlist_rejection.2.1 [] (PyVal.int 3) [] id true rfl,
   c6_cmdlist_rejection.2.2.1 [] ['a', ' ', 'b'] [] (by decide)⟩

/-- Every `int(...)` coercion in our value fragment succeeds, fails with
`ValueError`, or fails with `TypeError`. -/
theorem pyToInt_cases (v : PyVal) :
    (∃ n, pyToInt v = .ok n) ∨ pyToInt v = .error .valueError
      ∨ pyToInt v = .error .typeError := by
  cases v with
  | str s =>
    cases h : pyStrToInt s with
    | none => exact Or.inr (Or.inl (by simp [pyToInt, h]))
    | some n => exact Or.inl ⟨n, by simp [pyToInt, h]⟩
  | int n => exact Or.inl ⟨n, rfl⟩
  | none => exact Or.inr (Or.inr rfl)
  | list xs => exact Or.inr (Or.inr rfl)

/-- Claim C9 counterexample: `_killtasks` with the entry `None` raises an
uncaught `TypeError` from `int(None)` — only `ValueError` is caught — so
an exception does propagate to the caller. -/
theorem c9_counterexample :
    killtasksModel ⟨fun _ => .ok 0, fun _ _ => .ok ()⟩
        (Option.some (PyVal.list [PyVal.none])) 9 false
      = .error PyErr.typeError := rfl

/-- Claim C9 (amended): no exception propagates provided every entry is of
a type `int(...)` accepts or rejects with `ValueError` (integers and
strings); malformed strings are logged and skipped.  `ESRCH` from the
signalling calls is silently ignored; any other signalling error is logged
and swallowed.  Entries such as `None` or a list make `int(...)` raise
`TypeError`, which is not caught and propagates. -/
theorem c9_killtasks_swallow :
    (∀ (w : KillWorld) (xs : List PyVal) (sig : Int) (kp : Bool),
      (∀ v ∈ xs, pyToInt v ≠ .error .typeError) →
      ∃ logs, killtasksModel w (Option.some (.list xs)) sig kp = .ok logs)
    ∧ (∀ (w : KillWorld) (pid sig : Int),
      w.kill pid sig = .error .esrch → killOne w false sig pid = [])
    ∧ (∀ (w : KillWorld) (pid sig : Int),
      w.kill pid sig = .error .other → killOne w false sig pid = [KLog.opFail]) := by
  refine ⟨?_, ?_, ?_⟩
  · intro w xs sig kp hxs
    have hco : ∀ (ys : List PyVal), (∀ v ∈ ys, pyToInt v ≠ .error .typeError) →
        ∃ p, coercePids ys = .ok p := by
      intro ys
      induction ys with
      | nil => exact fun _ => ⟨([], []), rfl⟩
      | cons v rest ih =>
        intro h
        obtain ⟨p, hp⟩ := ih (fun u hu => h u (List.mem_cons_of_mem _ hu))
        rcases pyToInt_cases v with ⟨n, hn⟩ | hv | hv
        · exact ⟨(n :: p.1, p.2), by simp [coercePids, hn, hp, Except.map]⟩
        · exact ⟨(p.1, .convertFail :: p.2), by simp [coercePids, hv, hp, Except.map]⟩
        · exact absurd hv (h v (List.mem_cons_self v rest))
    obtain ⟨p, hp⟩ := hco xs hxs
    exact ⟨p.2 ++ p.1.flatMap (killOne w kp sig), by simp [killtasksModel, hp]⟩
  · intro w pid sig h
    simp [killOne, dswpKill, h]
  · intro w pid sig h
    simp [killOne, dswpKill, h]

/-- Claim C9 witness: the amended theorem evaluated at concrete inputs. -/
theorem c9_witness :
    (∃ logs, killtasksModel ⟨fun _ => .ok 0, fun _ _ => .error .esrch⟩
        (Option.some (.list [PyVal.int 3, PyVal.str ['z']])) 9 false = .ok logs)
    ∧ killOne ⟨fun _ => .ok 0, fun _ _ => .error .esrch⟩ false 9 3 = [] :=
  ⟨c9_killtasks_swallow.1 _ _ 9 false
      (by
        intro v hv
        simp only [List.mem_cons, List.not_mem_nil, or_false] at hv
        rcases hv with rfl | rfl
        · simp [pyToInt]
        · have hz : pyStrToInt ['z'] = Option.none := by decide
          simp [pyToInt, hz]),
   c9_killtasks_swallow.2.1 _ 3 9 rfl⟩

/-- Claim C8 counterexample: a run with `startpath` whose spawn fails
raises out of `_run` before `_run_post` — there is no `try/finally` — so
the working directory is left at the startpath (2), not restored to the
pre-run directory (1). -/
theorem c8_counterexample :
    runPathModel (Option.some 2) false (0, []) ⟨1, [1, 2]⟩
        = .error (PyErr.osError, ⟨2, [1, 2]⟩)
      ∧ (2 : Path) ≠ 1 :=
  ⟨rfl, by decide⟩

/-- Claim C8 (amended): when the run completes normally the working
directory is restored to the pre-run directory; when a fatal error (such
as a spawn failure) escapes after the chdir, nothing restores the path and
the process is left in the startpath. -/
theorem c8_startpath_restore :
    (∀ (sp : Path) (w : World) (child : Int × Str),
      sp ∈ w.dirs → w.cwd ∈ w.dirs →
      runPathModel (Option.some sp) true child w = .ok (child, w))
    ∧ (∀ (sp : Path) (w : World) (child : Int × Str),
      sp ∈ w.dirs →
      runPathModel (Option.some sp) false child w
        = .error (.osError, { w with cwd := sp })) := by
  constructor
  · intro sp w child hsp hcwd
    simp [runPathModel, hsp, hcwd]
  · intro sp w child hsp
    simp [runPathModel, hsp]

/-- Claim C8 witness: the amended theorem evaluated at concrete inputs. -/
theorem c8_witness :
    runPathModel (Option.some 2) true (0, []) ⟨1, [1, 2]⟩ = .ok ((0, []), ⟨1, [1, 2]⟩)
    ∧ runPathModel (Option.some 2) false (7, []) ⟨1, [1, 2]⟩
        = .error (.osError, ⟨2, [1, 2]⟩) :=
  ⟨c8_startpath_restore.1 2 ⟨1, [1, 2]⟩ (0, []) (by decide) (by decide),
   c8_startpath_restore.2 2 ⟨1, [1, 2]⟩ (7, []) (by decide)⟩

/-- Claim C3: the step is evaluated at a table with two exact questions,
the first of which matches the pending output harmlessly.  Instead of
answering the first matching question, the chunk-processing step raises a
`TypeError`: in Python 3 `sorted(self.qa.items())` has to compare two
`(re.Pattern, answers)` tuples, and `re.Pattern` supports neither `<` nor
a meaningful `==` across distinct objects. -/
theorem c3_sorted_typeerror :
    qaStepFull [(⟨fun _ => true⟩, [['y']]), (⟨fun _ => false⟩, [['n']])] [] [] 0 0 0
        ['a'] ['a']
      = .error (.pyExc PyErr.typeError)
    ∧ Pattern.search ⟨fun _ => true⟩ ['a'] = true :=
  ⟨rfl, rfl⟩

/-- Claim C7 counterexample: a child terminated by a signal is reported by
`poll()` with a *negative* status (here `-9`); the guard
`ec is None or ec < 0` treats that as "still running", so the loop does
not stop — after 5 fuelled iterations it is still looping (`Option.none`),
although the child has exited at iteration 0. -/
theorem c7_counterexample :
    runLoopModel trivialHook ⟨fun _ => [], fun _ => Option.some (-9), []⟩ 5
        = Option.none
      ∧ loopCond true (Option.some (-9)) = true :=
  ⟨rfl, rfl⟩

/-- Claim C7 (amended): the loop iterates exactly while the continue flag
holds and `poll()` reports either no status or a negative one; it stops
only when a non-negative status is reported, at which point the remaining
output is drained with one blocking full read (appended to the collected
output) and the exit code is set to that status.  A negative (signal)
status keeps the loop running. -/
theorem c7_loop_poll :
    (∀ {σ : Type} (hk : Hook σ) (t : Trace) (fuel i : Nat) (s : σ) (acc : Str)
      (v : Int) (s2 : σ),
      t.polls i = Option.some v → 0 ≤ v →
      hk.step i s t.finalRead (acc ++ t.finalRead) = .ok s2 →
      runLoopGo hk t (fuel + 1) i s acc
        = Option.some (.ok ⟨Option.some v, acc ++ t.finalRead, false, i⟩))
    ∧ (∀ {σ : Type} (hk : Hook σ) (t : Trace) (fuel i : Nat) (s : σ) (acc : Str)
      (s2 : σ),
      loopCond true (t.polls i) = true →
      hk.step i s (t.chunks i) (acc ++ t.chunks i) = .ok s2 →
      runLoopGo hk t (fuel + 1) i s acc
        = runLoopGo hk t fuel (i + 1) s2 (acc ++ t.chunks i))
    ∧ (∀ v : Int, loopCond true (Option.some v) = decide (v < 0)) := by
  refine ⟨?_, ?_, ?_⟩
  · intro σ hk t fuel i s acc v s2 hp hv hstep
    have hcond : loopCond true (Option.some v) = false := by
      simp [loopCond, not_lt.mpr hv]
    simp [runLoopGo, hp, hcond, hstep]
  · intro σ hk t fuel i s acc s2 hcond hstep
    simp [runLoopGo, hcond, hstep]
  · intro v
    simp [loopCond]

/-- Claim C7 witness: the amended theorem evaluated at concrete inputs. -/
theorem c7_witness :
    runLoopGo trivialHook ⟨fun _ => [], fun _ => Option.some 0, ['x']⟩ 1 0 () []
        = Option.some (.ok ⟨Option.some 0, ['x'], false, 0⟩)
      ∧ runLoopGo trivialHook ⟨fun _ => ['y'], fun _ => Option.none, []⟩ 3 0 () []
        = runLoopGo trivialHook ⟨fun _ => ['y'], fun _ => Option.none, []⟩ 2 1 () ['y'] :=
  ⟨c7_loop_poll.1 trivialHook ⟨fun _ => [], fun _ => Option.some 0, ['x']⟩ 0 0 () [] 0 ()
      rfl (by decide) rfl,
   c7_loop_poll.2.1 trivialHook ⟨fun _ => ['y'], fun _ => Option.none, []⟩ 2 0 () [] ()
      rfl rfl⟩

theorem c1_aux (t : Trace) (elapsed : Nat → Int) (tmo : Int) :
    ∀ (k fuel i : Nat) (acc : Str),
    (∀ j, j < k → elapsed (i + j) ≤ tmo) →
    (∀ j, j ≤ k → loopCond true (t.polls (i + j)) = true) →
    elapsed (i + k) > tmo → k < fuel →
    runLoopGo (timeoutHook elapsed tmo) t fuel i () acc
      = Option.some (.ok ⟨Option.some RUNRUN_TIMEOUT_EXITCODE,
          RUNRUN_TIMEOUT_OUTPUT, true, i + k⟩) := by
  intro k
  induction k with
  | zero =>
    intro fuel i acc _ hcond hlate hfuel
    obtain ⟨f, rfl⟩ : ∃ f, fuel = f + 1 := ⟨fuel - 1, by omega⟩
    have hc := hcond 0 (by omega)
    simp only [Nat.add_zero] at hc hlate
    simp [runLoopGo, hc, timeoutHook, hlate]
  | succ k ih =>
    intro fuel i acc hok hcond hlate hfuel
    obtain ⟨f, rfl⟩ : ∃ f, fuel = f + 1 := ⟨fuel - 1, by omega⟩
    have hc := hcond 0 (by omega)
    simp only [Nat.add_zero] at hc
    have hstep : elapsed i ≤ tmo := by
      have := hok 0 (by omega)
      simpa using this
    have : runLoopGo (timeoutHook elapsed tmo) t (f + 1) i () acc
        = runLoopGo (timeoutHook elapsed tmo) t f (i + 1) () (acc ++ t.chunks i) := by
      simp [runLoopGo, hc, timeoutHook, not_lt.mpr hstep]
    rw [this]
    have hres := ih f (i + 1) (acc ++ t.chunks i)
      (fun j hj => by
        have := hok (j + 1) (by omega)
        simpa [Nat.add_assoc, Nat.add_comm 1 j] using this)
      (fun j hj => by
        have := hcond (j + 1) (by omega)
        simpa [Nat.add_assoc, Nat.add_comm 1 j] using this)
      (by
        have := hlate
        simpa [Nat.add_assoc, Nat.add_comm 1 k] using this)
      (by omega)
    rw [hres]
    simp [Nat.add_assoc, Nat.add_comm 1 k]

/-- Claim C1: in the timeout variant, if the wall-clock time elapsed at
chunk-processing step `k` strictly exceeds the timeout (and no earlier
step had yet exceeded it, the loop being still live), the hook calls
`stop_tasks()` and raises `RunLoopException(123, '')`; the loop handler
then terminates the loop and overwrites both the exit code and the
collected output with the carried sentinel values — exit code 123 and
empty output — discarding whatever output had accumulated. -/
theorem c1_timeout_sentinel (t : Trace) (elapsed : Nat → Int) (tmo : Int)
    (k fuel : Nat) (acc : Str)
    (hok : ∀ j, j < k → elapsed j ≤ tmo)
    (hcond : ∀ j, j ≤ k → loopCond true (t.polls j) = true)
    (hlate : elapsed k > tmo) (hfuel : k < fuel) :
    runLoopGo (timeoutHook elapsed tmo) t fuel 0 () acc
      = Option.some (.ok ⟨Option.some RUNRUN_TIMEOUT_EXITCODE,
          RUNRUN_TIMEOUT_OUTPUT, true, k⟩) := by
  have := c1_aux t elapsed tmo k fuel 0 acc
    (fun j hj => by simpa using hok j hj)
    (fun j hj => by simpa using hcond j hj)
    (by simpa using hlate) hfuel
  simpa using this

/-- Claim C1 witness: a run whose clock passes the timeout at iteration 2
returns `(123, "")` with the kill flag set, discarding the accumulated
output. -/
theorem c1_witness :
    runLoopGo (timeoutHook (fun j => (j : Int)) 1)
        ⟨fun _ => ['o'], fun _ => Option.none, []⟩ 5 0 () []
      = Option.some (.ok ⟨Option.some RUNRUN_TIMEOUT_EXITCODE,
          RUNRUN_TIMEOUT_OUTPUT, true, 2⟩) :=
  c1_timeout_sentinel ⟨fun _ => ['o'], fun _ => Option.none, []⟩
    (fun j => (j : Int)) 1 2 5 []
    (by intro j hj; interval_cases j <;> decide)
    (fun j _ => rfl) (by decide) (by decide)

/-- The scan of the question table returns (never raises, for well-formed
answer lists), and it hits exactly when the chunk is non-empty and some
question matches the output past the hit position. -/
theorem qaScan_ok (chunk since : Str) :
    ∀ (l : List (Pattern × List Str)), (∀ p ∈ l, p.2 ≠ []) →
      ∃ r, qaScan chunk since l = .ok r
        ∧ r.1.isSome = (!chunk.isEmpty && l.any (fun p => p.1.search since)) := by
  intro l
  induction l with
  | nil => exact fun _ => ⟨(Option.none, []), rfl, by simp⟩
  | cons hd rest ih =>
    intro h
    obtain ⟨q, ans⟩ := hd
    obtain ⟨r, hr, hs⟩ := ih (fun u hu => h u (List.mem_cons_of_mem _ hu))
    cases hc : (!chunk.isEmpty && q.search since) with
    | true =>
      cases ans with
      | nil => exact absurd rfl (h (q, []) (List.mem_cons_self _ _))
      | cons a tail =>
        refine ⟨(Option.some a,
          (q, if tail.length + 1 > 1 then (if CYCLE_ANSWERS then tail ++ [a] else tail)
              else a :: tail) :: rest), ?_, ?_⟩
        · simp [qaScan, hc, answerSelect]
        · rw [Option.isSome_some, List.any_cons]
          cases he : (!chunk.isEmpty) <;> cases hq : q.search since <;> simp_all
    | false =>
      refine ⟨(r.1, (q, ans) :: r.2), ?_, ?_⟩
      · simp [qaScan, hc, hr, Except.map]
      · rw [List.any_cons, hs]
        cases he : (!chunk.isEmpty) <;> cases hq : q.search since <;> simp_all

/-- `qaStep` factored through `qaPost`: after a successful scan, the step
either bails out (when the updated miss counter exceeds the limit) or
returns the updated state together with the answer written. -/
theorem qaStep_eq (st : QAState) (chunk acc : Str) (ans : Option Str)
    (newQA : List (Pattern × List Str))
    (hr : qaScan chunk (acc.drop st.hitPosition) st.allQA = .ok (ans, newQA)) :
    qaStep st chunk acc =
      if (qaPost st acc ans.isSome newQA).missCount > LOOP_MAX_MISS_COUNT then
        .error (.loopExc RUNRUN_QA_MAX_MISS_EXITCODE acc true)
      else .ok (qaPost st acc ans.isSome newQA, ans) := by
  simp only [qaStep, hr, qaPost]

/-- The miss counter of the post-state is exactly the update the
specification describes. -/
theorem qaPost_missCount (st : QAState) (acc : Str) (hit : Bool)
    (newQA : List (Pattern × List Str)) :
    (qaPost st acc hit newQA).missCount
      = specMissCount hit (decide (acc.length > st.prevOutputLength))
          (st.noQA.any (fun r => r.search acc)) st.missCount := by
  cases hit with
  | true => simp [qaPost, specMissCount]
  | false =>
    cases hg : decide (acc.length > st.prevOutputLength) with
    | true =>
      have := of_decide_eq_true hg
      simp [qaPost, specMissCount, this]
    | false =>
      have := of_decide_eq_false hg
      cases hn : st.noQA.any (fun r => r.search acc) with
      | true => simp [qaPost, specMissCount, this, hn]
      | false => simp [qaPost, specMissCount, this, hn]

/-- The hit position and table of the post-state: unchanged on a miss,
advanced to the end of the buffer on a hit. -/
theorem qaPost_hitPosition (st : QAState) (acc : Str) (hit : Bool)
    (newQA : List (Pattern × List Str)) :
    (qaPost st acc hit newQA).hitPosition
      = (if hit then acc.length else st.hitPosition)
    ∧ (qaPost st acc hit newQA).allQA = newQA := by
  cases hit <;>
    first
      | (constructor <;>
          (simp only [qaPost]
           split <;> first | rfl | (split <;> first | rfl | (split <;> rfl))))

/-- The miss-counter law of the post-construction body `qaStep` (with the
table's answer lists non-empty, as `_parse_qa` produces them): the miss
counter of the resulting state is the update the specification describes,
and once it strictly exceeds `LOOP_MAX_MISS_COUNT` the step raises the
`(124, full output)` control-flow signal after killing the child. -/
theorem qaStep_missCount_spec :
    ∀ (st : QAState) (chunk acc : Str), (∀ p ∈ st.allQA, p.2 ≠ []) →
      (specMissCount (qaHasHit st chunk acc)
            (decide (acc.length > st.prevOutputLength))
            (st.noQA.any (fun r => r.search acc)) st.missCount ≤ LOOP_MAX_MISS_COUNT →
          ∃ st2 ans, qaStep st chunk acc = .ok (st2, ans)
            ∧ st2.missCount = specMissCount (qaHasHit st chunk acc)
                (decide (acc.length > st.prevOutputLength))
                (st.noQA.any (fun r => r.search acc)) st.missCount
            ∧ ans.isSome = qaHasHit st chunk acc)
        ∧ (specMissCount (qaHasHit st chunk acc)
            (decide (acc.length > st.prevOutputLength))
            (st.noQA.any (fun r => r.search acc)) st.missCount > LOOP_MAX_MISS_COUNT →
          qaStep st chunk acc
            = .error (.loopExc RUNRUN_QA_MAX_MISS_EXITCODE acc true)) := by
  intro st chunk acc hwf
  obtain ⟨r, hr, hs⟩ := qaScan_ok chunk (acc.drop st.hitPosition) st.allQA hwf
  obtain ⟨ans, newQA⟩ := r
  simp only at hs
  have hhit : ans.isSome = qaHasHit st chunk acc := hs
  have hq := qaStep_eq st chunk acc ans newQA hr
  have hmc := qaPost_missCount st acc ans.isSome newQA
  rw [hhit] at hq hmc
  constructor
  · intro hm
    rw [if_neg (by omega)] at hq
    exact ⟨qaPost st acc (qaHasHit st chunk acc) newQA, ans, hq, hmc, hhit⟩
  · intro hm
    rw [if_pos (by omega)] at hq
    exact hq

/-- Claim C2 counterexample: a QA table with two exact questions at miss
count 20, on a silent step (no hit, no growth, no `no_qa` match), where
the claim demands the counter reach 21 and the step raise the
`(124, full output)` signal after killing the child; the code instead
raises a `TypeError` from `sorted(self.qa.items())` before any miss-count
logic runs, which is not the claimed control-flow signal. -/
theorem c2_counterexample :
    qaStepFull [(⟨fun _ => false⟩, [['y']]), (⟨fun _ => false⟩, [['n']])] [] []
        0 20 0 [] []
      = .error (.pyExc PyErr.typeError)
    ∧ StepExit.pyExc PyErr.typeError
        ≠ StepExit.loopExc RUNRUN_QA_MAX_MISS_EXITCODE [] true :=
  ⟨rfl, fun h => StepExit.noConfusion h⟩

/-- Claim C2 (amended): for QA runs whose tables hold at most one exact
and at most one regex question — the only case in which the per-step
`sorted()` construction of line 918 returns — a chunk-processing step with
no question hit increments the miss counter exactly when the accumulated
output length did not grow past `prev_output_len` and no `no_qa` regex
matches, a hit resets the counter to 0, and as soon as the counter
strictly exceeds `LOOP_MAX_MISS_COUNT` (20) the child is killed and the
run returns exit code 124 with the full accumulated output.  With two or
more questions in either table, every chunk-processing step instead
raises an uncaught `TypeError` (the C3 bug), which propagates out of the
loop and crashes the run — it never returns 124. -/
theorem c2_qa_miss_bailout :
    (∀ (qaD qaRegD : List (Pattern × List Str)) (noqa : List Pattern)
        (hitPos miss prev : Nat) (chunk acc : Str),
      qaD.length ≤ 1 → qaRegD.length ≤ 1 →
      (∀ p ∈ qaD ++ qaRegD, p.2 ≠ []) →
      (specMissCount (qaHasHit ⟨hitPos, miss, prev, qaD ++ qaRegD, noqa⟩ chunk acc)
            (decide (acc.length > prev)) (noqa.any (fun r => r.search acc)) miss
            ≤ LOOP_MAX_MISS_COUNT →
          ∃ st2 ans,
            qaStepFull qaD qaRegD noqa hitPos miss prev chunk acc = .ok (st2, ans)
            ∧ st2.missCount
                = specMissCount
                    (qaHasHit ⟨hitPos, miss, prev, qaD ++ qaRegD, noqa⟩ chunk acc)
                    (decide (acc.length > prev)) (noqa.any (fun r => r.search acc)) miss
            ∧ ans.isSome = qaHasHit ⟨hitPos, miss, prev, qaD ++ qaRegD, noqa⟩ chunk acc)
        ∧ (specMissCount (qaHasHit ⟨hitPos, miss, prev, qaD ++ qaRegD, noqa⟩ chunk acc)
            (decide (acc.length > prev)) (noqa.any (fun r => r.search acc)) miss
            > LOOP_MAX_MISS_COUNT →
          qaStepFull qaD qaRegD noqa hitPos miss prev chunk acc
            = .error (.loopExc RUNRUN_QA_MAX_MISS_EXITCODE acc true)))
    ∧ (∀ (qaD qaRegD : List (Pattern × List Str)) (noqa : List Pattern)
        (hitPos miss prev : Nat) (chunk acc : Str),
        2 ≤ qaD.length ∨ 2 ≤ qaRegD.length →
        qaStepFull qaD qaRegD noqa hitPos miss prev chunk acc
          = .error (.pyExc PyErr.typeError))
    ∧ (∀ (st0 : QAFullState) (t : Trace) (fuel i : Nat) (st : QAFullState)
        (acc : Str) (c : Int) (o : Str) (k : Bool),
        loopCond true (t.polls i) = true →
        qaFullStep st (t.chunks i) (acc ++ t.chunks i) = .error (.loopExc c o k) →
        runLoopGo (qaHookFull st0) t (fuel + 1) i st acc
          = Option.some (.ok ⟨Option.some c, o, k, i⟩))
    ∧ (∀ (st0 : QAFullState) (t : Trace) (fuel i : Nat) (st : QAFullState)
        (acc : Str) (e : PyErr),
        loopCond true (t.polls i) = true →
        qaFullStep st (t.chunks i) (acc ++ t.chunks i) = .error (.pyExc e) →
        runLoopGo (qaHookFull st0) t (fuel + 1) i st acc
          = Option.some (.error e)) := by
  refine ⟨?_, ?_, ?_, ?_⟩
  · intro qaD qaRegD noqa hitPos miss prev chunk acc hq1 hq2 hwf
    have hs1 : pySortedPatternItems qaD = .ok qaD := by
      rw [pySortedPatternItems, if_pos hq1]
    have hs2 : pySortedPatternItems qaRegD = .ok qaRegD := by
      rw [pySortedPatternItems, if_pos hq2]
    have hfull : qaStepFull qaD qaRegD noqa hitPos miss prev chunk acc
        = qaStep ⟨hitPos, miss, prev, qaD ++ qaRegD, noqa⟩ chunk acc := by
      simp only [qaStepFull, hs1, hs2]
    rw [hfull]
    exact qaStep_missCount_spec ⟨hitPos, miss, prev, qaD ++ qaRegD, noqa⟩ chunk acc hwf
  · intro qaD qaRegD noqa hitPos miss prev chunk acc h2
    by_cases h1 : qaD.length ≤ 1
    · rcases h2 with h | h
      · exact absurd h (by omega)
      · have hs1 : pySortedPatternItems qaD = .ok qaD := by
          rw [pySortedPatternItems, if_pos h1]
        have hs2 : pySortedPatternItems qaRegD = .error .typeError := by
          rw [pySortedPatternItems, if_neg (by omega)]
        simp [qaStepFull, hs1, hs2]
    · have hs1 : pySortedPatternItems qaD = .error .typeError := by
        rw [pySortedPatternItems, if_neg h1]
      simp [qaStepFull, hs1]
  · intro st0 t fuel i st acc c o k hcond hstep
    simp [runLoopGo, hcond, qaHookFull, hstep, Except.map]
  · intro st0 t fuel i st acc e hcond hstep
    simp [runLoopGo, hcond, qaHookFull, hstep, Except.map]

/-- Claim C2 witness: with a single (non-matching) question, a silent
empty chunk at miss count 20 trips the bailout, and plugged into the loop
the run ends with code 124, the accumulated output and the child killed;
with two questions the same step raises `TypeError` instead, and the loop
surfaces it as an uncaught exception. -/
theorem c2_witness :
    qaStepFull [(⟨fun _ => false⟩, [['y']])] [] [] 0 20 0 [] []
        = .error (.loopExc RUNRUN_QA_MAX_MISS_EXITCODE [] true)
    ∧ runLoopGo (qaHookFull ⟨[(⟨fun _ => false⟩, [['y']])], [], [], 0, 20, 0⟩)
        ⟨fun _ => [], fun _ => Option.none, []⟩ 1 0
        ⟨[(⟨fun _ => false⟩, [['y']])], [], [], 0, 20, 0⟩ []
      = Option.some (.ok ⟨Option.some RUNRUN_QA_MAX_MISS_EXITCODE, [], true, 0⟩)
    ∧ runLoopGo
        (qaHookFull ⟨[(⟨fun _ => false⟩, [['y']]), (⟨fun _ => false⟩, [['n']])],
          [], [], 0, 0, 0⟩)
        ⟨fun _ => [], fun _ => Option.none, []⟩ 1 0
        ⟨[(⟨fun _ => false⟩, [['y']]), (⟨fun _ => false⟩, [['n']])], [], [], 0, 0, 0⟩ []
      = Option.some (.error PyErr.typeError) :=
  ⟨(c2_qa_miss_bailout.1 [(⟨fun _ => false⟩, [['y']])] [] [] 0 20 0 [] []
      (by decide) (by decide)
      (by
        rintro p hp
        simp only [List.append_nil, List.mem_singleton] at hp
        subst hp
        simp)).2 (by decide),
   c2_qa_miss_bailout.2.2.1 ⟨[(⟨fun _ => false⟩, [['y']])], [], [], 0, 20, 0⟩
     ⟨fun _ => [], fun _ => Option.none, []⟩ 0 0
     ⟨[(⟨fun _ => false⟩, [['y']])], [], [], 0, 20, 0⟩ []
     RUNRUN_QA_MAX_MISS_EXITCODE [] true rfl rfl,
   c2_qa_miss_bailout.2.2.2
     ⟨[(⟨fun _ => false⟩, [['y']]), (⟨fun _ => false⟩, [['n']])], [], [], 0, 0, 0⟩
     ⟨fun _ => [], fun _ => Option.none, []⟩ 0 0
     ⟨[(⟨fun _ => false⟩, [['y']]), (⟨fun _ => false⟩, [['n']])], [], [], 0, 0, 0⟩ []
     PyErr.typeError rfl rfl⟩

/-- Claim C10: a chunk-processing step whose freshly read chunk is empty
never answers — the guard is `if output and res` — and leaves both the hit
position and the question table untouched, even when a question regex
matches the accumulated output past the hit position; conversely an answer
is only ever written in a step whose chunk is non-empty, so a prompt
already in the buffer waits for the next non-empty chunk. -/
theorem c10_empty_chunk_no_answer :
    (∀ (since : Str) (l : List (Pattern × List Str)),
      qaScan [] since l = .ok (Option.none, l))
    ∧ (∀ (st : QAState) (acc : Str) (st2 : QAState) (ans : Option Str),
      qaStep st [] acc = .ok (st2, ans) →
      ans = Option.none ∧ st2.hitPosition = st.hitPosition ∧ st2.allQA = st.allQA)
    ∧ (∀ (st : QAState) (chunk acc : Str) (st2 : QAState) (a : Str),
      qaStep st chunk acc = .ok (st2, Option.some a) → chunk ≠ []) := by
  have hscan : ∀ (since : Str) (l : List (Pattern × List Str)),
      qaScan [] since l = .ok (Option.none, l) := by
    intro since l
    induction l with
    | nil => rfl
    | cons hd rest ih =>
      obtain ⟨q, ans⟩ := hd
      simp [qaScan, ih, Except.map]
  have hstep : ∀ (st : QAState) (acc : Str) (st2 : QAState) (ans : Option Str),
      qaStep st [] acc = .ok (st2, ans) →
      ans = Option.none ∧ st2.hitPosition = st.hitPosition ∧ st2.allQA = st.allQA := by
    intro st acc st2 ans h
    have hq := qaStep_eq st [] acc Option.none st.allQA (hscan _ _)
    rw [hq] at h
    split at h
    · cases h
    · have hinj := Except.ok.inj h
      have h1 : qaPost st acc false st.allQA = st2 := by
        simpa using congrArg Prod.fst hinj
      have h2 : (Option.none : Option Str) = ans := congrArg Prod.snd hinj
      obtain ⟨hh, ha⟩ := qaPost_hitPosition st acc false st.allQA
      rw [h1] at hh ha
      refine ⟨h2.symm, ?_, ha⟩
      simpa using hh
  refine ⟨hscan, hstep, ?_⟩
  intro st chunk acc st2 a h hch
  subst hch
  obtain ⟨hnone, -, -⟩ := hstep st acc st2 (Option.some a) h
  cases hnone

/-- Claim C10 witness: the theorem applied to concrete steps — an empty
chunk with a matching question yields no answer; a step that did answer
had a non-empty chunk. -/
theorem c10_witness :
    qaScan [] ['a'] [(⟨fun _ => true⟩, [['y']])]
        = .ok (Option.none, [(⟨fun _ => true⟩, [['y']])])
      ∧ (['a'] : Str) ≠ [] :=
  ⟨c10_empty_chunk_no_answer.1 ['a'] [(⟨fun _ => true⟩, [['y']])],
   c10_empty_chunk_no_answer.2.2 ⟨0, 0, 0, [(⟨fun _ => true⟩, [['y']])], []⟩ ['a'] ['a']
     ⟨1, 0, 0, [(⟨fun _ => true⟩, [['y']])], []⟩ ['y'] rfl⟩

theorem rotate1_eq_rotate (l : List Str) : rotate1 l = l.rotate 1 := by
  cases l with
  | nil => rfl
  | cons a tail =>
    cases tail with
    | nil => simp [rotate1, answerSelect, CYCLE_ANSWERS, List.rotate_cons_succ]
    | cons b t =>
      simp [rotate1, answerSelect, CYCLE_ANSWERS, List.rotate_cons_succ]

theorem hitsAfter_eq_rotate (n : Nat) (l : List Str) :
    hitsAfter n l = l.rotate n := by
  induction n generalizing l with
  | zero => simp [hitsAfter]
  | succ n ih =>
    rw [hitsAfter, ih, rotate1_eq_rotate, List.rotate_rotate, Nat.add_comm]

/-- Claim C4: with `k` answers in the list, the `n`-th hit of a question
sends answer number `(n-1) mod k` of the original list, because each hit
consumes the head and re-appends it at the tail; a single-answer list is
left unchanged by every hit; the scan itself sends the head and stores the
rotation; and with `add_newline` set every processed answer gains a
trailing newline when it lacks one (so all sent answers are
newline-terminated). -/
theorem c4_answer_cycling :
    (∀ (l : List Str) (n : Nat), 1 ≤ n →
      nthHitAnswer n l = l[(n - 1) % l.length]?)
    ∧ (∀ (a : Str) (n : Nat), hitsAfter n [a] = [a])
    ∧ (∀ (q : Pattern) (ans : List Str) (rest : List (Pattern × List Str))
        (chunk since : Str), chunk ≠ [] → q.search since = true → ans ≠ [] →
      qaScan chunk since ((q, ans) :: rest)
        = .ok (ans.head?, (q, rotate1 ans) :: rest))
    ∧ (∀ (l : List Str), ∀ a ∈ processAnswersNL true l,
      a.getLast? = Option.some '\n') := by
  refine ⟨?_, ?_, ?_, ?_⟩
  · intro l n hn
    rcases l with _ | ⟨a, tail⟩
    · simp [nthHitAnswer, hitsAfter_eq_rotate]
    · rw [nthHitAnswer, hitsAfter_eq_rotate, ← List.rotate_mod,
        List.head?_rotate (Nat.mod_lt _ (by simp))]
  · intro a n
    rw [hitsAfter_eq_rotate, List.rotate_singleton]
  · intro q ans rest chunk since hch hq hans
    rcases ans with _ | ⟨a, tail⟩
    · exact absurd rfl hans
    · have hc : (!chunk.isEmpty && q.search since) = true := by
        rcases chunk with _ | ⟨c, cs⟩
        · exact absurd rfl hch
        · simp [hq]
      simp [qaScan, hc, answerSelect, rotate1]
  · intro l a ha
    simp only [processAnswersNL, if_true, List.mem_map] at ha
    obtain ⟨b, -, rfl⟩ := ha
    by_cases hb : b.getLast? = Option.some '\n'
    · simp [hb]
    · simp [hb]

/-- Claim C4 witness: the list `["A\n", "B\n"]` answers `A\n`, `B\n`,
`A\n` on the first three hits, and a singleton list is unchanged. -/
theorem c4_witness :
    nthHitAnswer 1 [['A', '\n'], ['B', '\n']] = Option.some ['A', '\n']
    ∧ nthHitAnswer 2 [['A', '\n'], ['B', '\n']] = Option.some ['B', '\n']
    ∧ nthHitAnswer 3 [['A', '\n'], ['B', '\n']] = Option.some ['A', '\n']
    ∧ hitsAfter 5 [['A', '\n']] = [['A', '\n']] := by
  refine ⟨?_, ?_, ?_, c4_answer_cycling.2.1 ['A', '\n'] 5⟩
  · rw [c4_answer_cycling.1 [['A', '\n'], ['B', '\n']] 1 (by decide)]
    rfl
  · rw [c4_answer_cycling.1 [['A', '\n'], ['B', '\n']] 2 (by decide)]
    rfl
  · rw [c4_answer_cycling.1 [['A', '\n'], ['B', '\n']] 3 (by decide)]
    rfl

theorem map_intersperse {α β : Type} (f : α → β) (a : α) :
    ∀ (l : List α), (l.intersperse a).map f = (l.map f).intersperse (f a) := by
  intro l
  induction l with
  | nil => rfl
  | cons b t ih =>
    cases t with
    | nil => rfl
    | cons c t2 =>
      simp only [List.intersperse_cons_cons, List.map_cons]
      rw [ih, List.map_cons]

/-- A literal token consumes exactly its own text. -/
theorem matchToks_lit_consume (p : Str) : ∀ (ts : List RTok) (rest : Str),
    matchToks (.lit p :: ts) (p ++ rest) = matchToks ts rest := by
  induction p with
  | nil => intro ts rest; simp [matchToks]
  | cons a ps ih =>
    intro ts rest
    show matchToks (.lit (a :: ps) :: ts) (a :: (ps ++ rest)) = _
    simp [matchToks, ih]

/-- `wsStar` can swallow any leading whitespace run. -/
theorem matchToks_wsStar_skip : ∀ (s : Str) (ts : List RTok),
    matchToks ts (s.dropWhile isWS) = true → matchToks (.wsStar :: ts) s = true := by
  intro s
  induction s with
  | nil =>
    intro ts h
    simp only [List.dropWhile_nil] at h
    simp [matchToks, h]
  | cons c cs ih =>
    intro ts h
    rw [List.dropWhile_cons] at h
    cases hc : isWS c with
    | true =>
      rw [if_pos hc] at h
      simp [matchToks, hc, ih ts h]
    | false =>
      rw [if_neg (by simp [hc])] at h
      simp [matchToks, h]

/-- `splitWSGo` always produces at least one piece. -/
theorem splitWSGo_cons : ∀ (s cur : Str), ∃ p0 prest, splitWSGo s cur = p0 :: prest := by
  intro s cur
  induction s, cur using splitWSGo.induct with
  | case1 cur => exact ⟨cur, [], by simp [splitWSGo]⟩
  | case2 cur c cs hws ih =>
    exact ⟨cur, splitWSGo (cs.dropWhile isWS) [], by simp [splitWSGo, hws]⟩
  | case3 cur c cs hws ih =>
    obtain ⟨p0, prest, hp⟩ := ih
    exact ⟨p0, prest, by simp [splitWSGo, hws, hp]⟩

/-- The token list of the pieces of `splitWSGo s cur` fully matches
`cur ++ s`: the string is exactly its pieces joined by its whitespace
runs, each run matched by one `[\s\n]+`, the final `[\s\n]*` by nothing. -/
theorem matchToks_splitWSGo : ∀ (s cur : Str),
    matchToks (toksOfPieces (splitWSGo s cur)) (cur ++ s) = true := by
  intro s cur
  induction s, cur using splitWSGo.induct with
  | case1 cur =>
    simp only [splitWSGo, toksOfPieces, List.map_cons, List.map_nil,
      List.intersperse_singleton, List.append_nil]
    have h := matchToks_lit_consume cur [.wsStar] []
    rw [List.append_nil] at h
    show matchToks ([RTok.lit cur] ++ [RTok.wsStar]) cur = true
    rw [List.singleton_append, h]
    simp [matchToks]
  | case2 cur c cs hws ih =>
    obtain ⟨p0, prest, hp⟩ := splitWSGo_cons (cs.dropWhile isWS) []
    rw [hp] at ih
    simp only [List.nil_append] at ih
    have hsplit : splitWSGo (c :: cs) cur = cur :: p0 :: prest := by
      simp [splitWSGo, hws, hp]
    rw [hsplit]
    have htoks : toksOfPieces (cur :: p0 :: prest)
        = .lit cur :: .wsPlus :: toksOfPieces (p0 :: prest) := by
      simp [toksOfPieces, List.intersperse_cons_cons]
    rw [htoks]
    have hlit := matchToks_lit_consume cur (.wsPlus :: toksOfPieces (p0 :: prest)) (c :: cs)
    rw [hlit]
    have hstar : matchToks (.wsStar :: toksOfPieces (p0 :: prest)) cs = true :=
      matchToks_wsStar_skip cs _ ih
    simp [matchToks, hws, hstar]
  | case3 cur c cs hws ih =>
    have hsplit : splitWSGo (c :: cs) cur = splitWSGo cs (cur ++ [c]) := by
      simp [splitWSGo, hws]
    rw [hsplit]
    have hs : (cur ++ [c]) ++ cs = cur ++ (c :: cs) := by
      rw [List.append_assoc, List.singleton_append]
    rw [← hs]
    exact ih

/-- The compiled pattern of an exact question matches the question itself
in full (hence `reg_q.search(question)` succeeds, at position 0). -/
theorem matchToks_self (q : Str) : matchToks (patToks q) q = true := by
  have h := matchToks_splitWSGo q []
  rw [List.nil_append] at h
  exact h

/-- The self-match sanity check of `process_question` always succeeds. -/
theorem searchToks_self (q : Str) : searchToks (patToks q) q = true := by
  rw [searchToks, List.any_eq_true]
  refine ⟨0, List.mem_range.mpr (by omega), ?_⟩
  rw [List.drop_zero]
  exact matchToks_self q

/-- Rendering the token denotation of a piece list gives back the exact
regex text `process_question` builds. -/
theorem renderToks_toksOfPieces (pieces : List Str) :
    renderToks (toksOfPieces pieces)
      = List.intercalate SPLIT (pieces.map escapeSpecial)
          ++ ['[', '\\', 's', '\n', ']', '*'] ++ ['$'] := by
  rw [renderToks, toksOfPieces, List.flatMap_append]
  have h1 : ((pieces.map RTok.lit).intersperse RTok.wsPlus).flatMap renderTok
      = List.intercalate SPLIT (pieces.map escapeSpecial) := by
    rw [List.flatMap, map_intersperse, List.map_map, List.intercalate]
    rfl
  have h2 : ([RTok.wsStar] : List RTok).flatMap renderTok
      = ['[', '\\', 's', '\n', ']', '*'] := rfl
  rw [h1, h2]

/-- Claim C5: for every exact (literal) question string the compiled
pattern text equals the question split on whitespace runs, each piece
regex-escaped, rejoined with `[\s\n]+` and suffixed with the `[\s\n]*$`
anchor (and that text denotes exactly the token pattern the matcher
interprets); the self-match sanity check — `reg_q.search(question)` — is
performed, a failure would be fatal, and it always succeeds, so
`process_question` always returns the pattern.  Caller-supplied `qa_reg`
questions receive only the trailing `[\s\n]*$` anchor. -/
theorem c5_question_compilation : ∀ (q : Str),
    processQuestion q = .ok (processQuestionText q)
    ∧ processQuestionText q
        = List.intercalate SPLIT ((splitWS q).map escapeSpecial)
            ++ ['[', '\\', 's', '\n', ']', '*', '$']
    ∧ renderToks (patToks q) = processQuestionText q
    ∧ searchToks (patToks q) q = true
    ∧ (∀ r : Str, regQuestionText r
        = r ++ ['[', '\\', 's', '\\', 'n', ']', '*', '$']) := by
  intro q
  have htail : rstripChar '+' SPLIT ++ ['*', '$']
      = ['[', '\\', 's', '\n', ']', '*', '$'] := by decide
  have htext : processQuestionText q
      = List.intercalate SPLIT ((splitWS q).map escapeSpecial)
          ++ ['[', '\\', 's', '\n', ']', '*', '$'] := by
    rw [processQuestionText, List.append_assoc, htail]
  refine ⟨?_, htext, ?_, searchToks_self q, fun r => rfl⟩
  · rw [processQuestion, if_pos (searchToks_self q)]
  · rw [patToks, renderToks_toksOfPieces, htext, List.append_assoc]
    rfl

end VscRun
